import Mathlib

/-!
Squire agent-cli: session loop, request dispatcher and token provider.

A shallow embedding of `agent-cli/main.go`, `agent-cli/client/client.go` and
`agent-cli/auth/auth.go`, followed by the properties of the specification that
were checked against it.

Modelling conventions.

* Go `string` and `[]byte` values are Lean `String`s (Unicode text); where the
  program works on the bytes of a string (`len`, slicing, writing to standard
  output) the UTF-8 encoding `utf8` is used.
* Go `error` values are represented by the text their `Error()` method returns,
  except inside the client package, where `DispatchError` records which
  `fmt.Errorf` call built the error and `DispatchError.Error` renders its text.
* A `*string` is an `Option String`; `nil` is `none`.
* The outside world (HTTP server, MSAL public client, standard input) is
  explicit data: every loop iteration receives a `World` that answers the calls
  made during that iteration.
* Calls on collaborators and writes to standard output are recorded, in program
  order, as a list of `Event`s.
* `encoding/json` is a parameter (`Json`): the program is verified for every
  behaviour of the decoder.
-/

namespace Squire

/-! ## Go library functions used by the program -/

/-- Bytes, as written to standard output or held in a Go string. -/
abbrev Bytes := List UInt8

/-- UTF-8 encoding of a text: the bytes of the corresponding Go string. -/
def utf8 (s : String) : Bytes := s.data.flatMap String.utf8EncodeChar

/-- Go `unicode.IsSpace`: the Unicode White_Space property. -/
def isSpace (c : Char) : Bool :=
  c = '\t' || c = '\n' || c.val = 0x0B || c.val = 0x0C || c = '\r' || c = ' ' ||
  c.val = 0x85 || c.val = 0xA0 || c.val = 0x1680 ||
  (0x2000 ≤ c.val && c.val ≤ 0x200A) ||
  c.val = 0x2028 || c.val = 0x2029 || c.val = 0x202F || c.val = 0x205F || c.val = 0x3000

/-- Go `strings.TrimSpace`: the text without leading and trailing white space. -/
def TrimSpace (s : String) : String :=
  String.mk ((s.data.dropWhile isSpace).rdropWhile isSpace)

/-- Worker of `Fields`: `cur` is the field being read, `cs` the unread text. -/
def fieldsFrom : List Char → List Char → List String
  | [], cur => if cur.isEmpty then [] else [String.mk cur]
  | c :: cs, cur =>
    if isSpace c then
      (if cur.isEmpty then fieldsFrom cs [] else String.mk cur :: fieldsFrom cs [])
    else fieldsFrom cs (cur ++ [c])

/-- Go `strings.Fields`: the maximal runs of non-white-space characters, in order. -/
def Fields (s : String) : List String := fieldsFrom s.data []

/-- Go `strings.HasPrefix`. -/
def HasPrefix (s p : String) : Bool := p.data.isPrefixOf s.data

/-- Go slice expression `s[:hi]` on a string: the first `hi` bytes, or `none` when
`hi > len(s)`, where the Go runtime panics (slice bounds out of range). -/
def sliceTo (s : String) (hi : Nat) : Option Bytes :=
  if hi ≤ (utf8 s).length then some ((utf8 s).take hi) else none

/-! ## Data model (client/client.go) -/

/-- Go `time.Time` (never inspected by the program); the zero value is `⟨0, 0⟩`. -/
structure Time where
  wall : Nat
  ext : Int
  deriving DecidableEq, Repr

structure SendMessageRequest where
  Message : String
  ThreadID : Option String
  deriving DecidableEq, Repr

structure AgentResponse where
  ThreadID : String
  Message : String
  Timestamp : Time
  deriving DecidableEq, Repr

structure UserProfile where
  PreferredAgentInstructions : String
  CustomWorkflowsJson : String
  deriving DecidableEq, Repr

structure ErrorResponse where
  Error : String
  Message : String
  deriving DecidableEq, Repr

structure ConversationMetadata where
  ID : Int
  ThreadID : String
  Title : String
  CreatedAt : Time
  LastMessageAt : Time
  deriving DecidableEq, Repr

/-- Go zero value of `AgentResponse` (`var resp AgentResponse`). -/
def AgentResponse.zero : AgentResponse := ⟨"", "", ⟨0, 0⟩⟩

/-- Go zero value of `UserProfile`. -/
def UserProfile.zero : UserProfile := ⟨"", ""⟩

/-- Go zero value of `ErrorResponse`. -/
def ErrorResponse.zero : ErrorResponse := ⟨"", ""⟩

/-- The struct `AgentClient`; its `httpClient` (a 30 second timeout) is part of the world. -/
structure AgentClient where
  baseURL : String
  token : String
  deriving DecidableEq, Repr

/-- Go `NewAgentClient`. -/
def NewAgentClient (baseURL accessToken : String) : AgentClient :=
  { baseURL := baseURL, token := accessToken }

/-- The values passed as `body` to `doRequest`. -/
inductive RequestBody where
  | sendMessage (req : SendMessageRequest)
  | userProfile (profile : UserProfile)
  deriving DecidableEq, Repr

/-- The HTTP request `doRequest` builds: method, URL, bearer token and body. -/
structure HttpRequest where
  method : String
  url : String
  authorization : String
  body : Option RequestBody
  deriving DecidableEq, Repr

/-- What happens to one HTTP exchange, stage by stage, in the order `doRequest`
goes through them: `json.Marshal` of the body, `http.NewRequestWithContext`,
`httpClient.Do`, `io.ReadAll`, and then the status code and body of the response.
An error text at a stage means that stage fails. -/
structure Exchange where
  marshalErr : Option String
  newRequestErr : Option String
  doErr : Option String
  readErr : Option String
  statusCode : Int
  respBody : String
  deriving DecidableEq, Repr

/-- Go `json.Unmarshal(data, &v)`: from the data and the current value of `v`, the
error (if any) and the value of `v` afterwards. -/
abbrev Unmarshal (α : Type) := String → α → Option String × α

/-- The decoders of `encoding/json` at the four result types of the program. -/
structure Json where
  unmarshalErrorResponse : Unmarshal ErrorResponse
  unmarshalAgentResponse : Unmarshal AgentResponse
  unmarshalUserProfile : Unmarshal UserProfile
  unmarshalConversations : Unmarshal (List ConversationMetadata)

/-- The errors `doRequest` returns, one constructor per `fmt.Errorf` call. -/
inductive DispatchError where
  | marshal (cause : String)
  | newRequest (cause : String)
  | transport (cause : String)
  | readBody (cause : String)
  | api (statusCode : Int) (message : String)
  | unmarshal (cause : String)
  deriving DecidableEq, Repr

/-- The text of a `doRequest` error (`err.Error()`), following the format strings. -/
def DispatchError.Error : DispatchError → String
  | .marshal cause => "failed to marshal request: " ++ cause
  | .newRequest cause => "failed to create request: " ++ cause
  | .transport cause => "request failed: " ++ cause
  | .readBody cause => "failed to read response: " ++ cause
  | .api statusCode message => "API error (" ++ toString statusCode ++ "): " ++ message
  | .unmarshal cause => "failed to unmarshal response: " ++ cause

/-- Go `(*AgentClient).doRequest`. `http` answers the request; `body` is the request
body (`none` for `nil`); `decode` is the decoder for the caller's `result` pointer
(`none` for `result == nil`) and `result` the value it points to. Returns the error
(`none` for `nil`) and the value behind `result` afterwards. -/
def AgentClient.doRequest {α : Type} (c : AgentClient) (json : Json)
    (http : HttpRequest → Exchange) (method path : String) (body : Option RequestBody)
    (decode : Option (Unmarshal α)) (result : α) : Option DispatchError × α :=
  let x := http
    { method := method, url := c.baseURL ++ path, authorization := "Bearer " ++ c.token,
      body := body }
  match (if body.isSome then x.marshalErr else none) with
  | some err => (some (.marshal err), result)
  | none =>
  match x.newRequestErr with
  | some err => (some (.newRequest err), result)
  | none =>
  match x.doErr with
  | some err => (some (.transport err), result)
  | none =>
  match x.readErr with
  | some err => (some (.readBody err), result)
  | none =>
  if 400 ≤ x.statusCode then
    match json.unmarshalErrorResponse x.respBody ErrorResponse.zero with
    | (none, errResp) => (some (.api x.statusCode errResp.Message), result)
    | (some _, _) => (some (.api x.statusCode x.respBody), result)
  else
    match decode with
    | some dec =>
      if 0 < (utf8 x.respBody).length then
        match dec x.respBody result with
        | (some err, r) => (some (.unmarshal err), r)
        | (none, r) => (none, r)
      else (none, result)
    | none => (none, result)

/-- Go `(*AgentClient).SendMessage`. -/
def AgentClient.SendMessage (c : AgentClient) (json : Json) (http : HttpRequest → Exchange)
    (message : String) (threadID : Option String) : Except DispatchError AgentResponse :=
  let req : SendMessageRequest := { Message := message, ThreadID := threadID }
  match c.doRequest json http "POST" "/api/agent/send" (some (.sendMessage req))
      (some json.unmarshalAgentResponse) AgentResponse.zero with
  | (some err, _) => .error err
  | (none, resp) => .ok resp

/-- Go `(*AgentClient).GetProfile`. -/
def AgentClient.GetProfile (c : AgentClient) (json : Json) (http : HttpRequest → Exchange) :
    Except DispatchError UserProfile :=
  match c.doRequest json http "GET" "/api/profile" none
      (some json.unmarshalUserProfile) UserProfile.zero with
  | (some err, _) => .error err
  | (none, profile) => .ok profile

/-- Go `(*AgentClient).UpdateProfile`: a body, and no result expected. -/
def AgentClient.UpdateProfile (c : AgentClient) (json : Json) (http : HttpRequest → Exchange)
    (profile : UserProfile) : Option DispatchError :=
  (c.doRequest json http "PUT" "/api/profile" (some (.userProfile profile))
    (none : Option (Unmarshal Unit)) ()).1

/-- Go `(*AgentClient).ListConversations`; the nil slice is the empty list. -/
def AgentClient.ListConversations (c : AgentClient) (json : Json)
    (http : HttpRequest → Exchange) : Except DispatchError (List ConversationMetadata) :=
  match c.doRequest json http "GET" "/api/agent/conversations" none
      (some json.unmarshalConversations) [] with
  | (some err, _) => .error err
  | (none, conversations) => .ok conversations

/-! ## The MSAL public client and the auth manager (auth/auth.go) -/

/-- An MSAL account, as far as the program looks at it. -/
structure Account where
  HomeAccountID : String
  PreferredUsername : String
  deriving DecidableEq, Repr

/-- MSAL `public.AuthResult`. -/
structure AuthResult where
  Account : Account
  AccessToken : String
  deriving DecidableEq, Repr

/-- MSAL `public.DeviceCode`: the instructions for the user (`Result.Message`) and the
outcome of waiting for the user (`AuthenticationResult`). -/
structure DeviceCode where
  Message : String
  AuthenticationResult : Except String AuthResult

/-- The answers of the MSAL public client (`am.client`); an error is its text. -/
structure Msal where
  Accounts : Except String (List Account)
  AcquireTokenSilent : Account → Except String AuthResult
  AcquireTokenByDeviceCode : Except String DeviceCode
  RemoveAccount : Account → Option String

/-- What the program does to the outside, in program order. -/
inductive Event where
  /-- Bytes written to standard output. -/
  | stdout (bytes : Bytes)
  /-- Call of `handleCommand` with the trimmed input line. -/
  | handleCommand (cmd : String)
  /-- Call of `apiClient.SendMessage` with its arguments, and what it returned. -/
  | sendMessage (message : String) (threadID : Option String)
      (result : Except DispatchError AgentResponse)
  /-- Call of `apiClient.ListConversations`. -/
  | listConversations
  /-- Call of `apiClient.GetProfile`. -/
  | getProfile
  /-- Call of `authManager.SignOut`. -/
  | signOut
  /-- Call of `authManager.GetCurrentUser`. -/
  | getCurrentUser
  /-- Call of `am.client.Accounts`. -/
  | accounts
  /-- Call of `am.client.AcquireTokenSilent` for an account. -/
  | acquireTokenSilent (account : Account)
  /-- Call of `am.client.AcquireTokenByDeviceCode`. -/
  | acquireTokenByDeviceCode
  /-- Call of `deviceCode.AuthenticationResult`. -/
  | authenticationResult
  /-- Call of `am.client.RemoveAccount` for an account. -/
  | removeAccount (account : Account)

/-- Writing a text to standard output (`fmt.Print`, `fmt.Printf`, `fmt.Println`). -/
def out (text : String) : Event := .stdout (utf8 text)

/-- The device-code part of `GetAccessToken` (auth.go lines 56-76), which both the
"no cached account" and the "silent acquisition failed" paths run. -/
def AuthManager.deviceCodeFlow (client : Msal) : List Event × Except String String :=
  match client.AcquireTokenByDeviceCode with
  | .error err =>
    ([out "Authenticating with Microsoft...\n", .acquireTokenByDeviceCode],
      .error ("authentication failed: " ++ err))
  | .ok deviceCode =>
    match deviceCode.AuthenticationResult with
    | .error err =>
      ([out "Authenticating with Microsoft...\n", .acquireTokenByDeviceCode,
        out (deviceCode.Message ++ "\n"), .authenticationResult],
        .error ("authentication failed: " ++ err))
    | .ok result =>
      ([out "Authenticating with Microsoft...\n", .acquireTokenByDeviceCode,
        out (deviceCode.Message ++ "\n"), .authenticationResult,
        out "\n✓ Authentication successful!\n",
        out ("Logged in as: " ++ result.Account.PreferredUsername ++ "\n\n")],
        .ok result.AccessToken)

/-- Go `(*AuthManager).GetAccessToken`: the events, and the token or the error text. -/
def AuthManager.GetAccessToken (client : Msal) : List Event × Except String String :=
  match client.Accounts with
  | .error err => ([.accounts], .error ("failed to get accounts: " ++ err))
  | .ok [] =>
    let r := AuthManager.deviceCodeFlow client
    (.accounts :: r.1, r.2)
  | .ok (account :: _) =>
    match client.AcquireTokenSilent account with
    | .ok result =>
      ([.accounts, .acquireTokenSilent account,
        out ("✓ Authenticated as: " ++ account.PreferredUsername ++ "\n\n")],
        .ok result.AccessToken)
    | .error _ =>
      let r := AuthManager.deviceCodeFlow client
      (.accounts :: .acquireTokenSilent account :: r.1, r.2)

/-- The loop of `SignOut` over the accounts: stops at the first removal that fails. -/
def AuthManager.removeAccounts (client : Msal) : List Account → List Event × Option String
  | [] => ([], none)
  | account :: rest =>
    match client.RemoveAccount account with
    | some err => ([.removeAccount account], some ("failed to remove account: " ++ err))
    | none =>
      let r := AuthManager.removeAccounts client rest
      (.removeAccount account :: r.1, r.2)

/-- Go `(*AuthManager).SignOut`: the events, and the error text (`none` for `nil`). -/
def AuthManager.SignOut (client : Msal) : List Event × Option String :=
  match client.Accounts with
  | .error err => ([.accounts], some ("failed to get accounts: " ++ err))
  | .ok accounts =>
    match AuthManager.removeAccounts client accounts with
    | (events, some err) => (.accounts :: events, some err)
    | (events, none) => (.accounts :: events ++ [out "✓ Signed out successfully\n"], none)

/-- Go `(*AuthManager).GetCurrentUser`. -/
def AuthManager.GetCurrentUser (client : Msal) : List Event × String :=
  match client.Accounts with
  | .error _ => ([.accounts], "")
  | .ok [] => ([.accounts], "")
  | .ok (account :: _) => ([.accounts], account.PreferredUsername)

/-! ## The session loop (main.go) -/

/-- The outside world during one iteration of the loop: the agent service behind
the HTTP client and the MSAL client behind the auth manager. -/
structure World where
  http : HttpRequest → Exchange
  msal : Msal

/-- How a Go function call ends: it returns a value, or the goroutine panics. -/
inductive Completion (α : Type) where
  | returned (value : α)
  | panicked
  deriving DecidableEq, Repr

/-- The text `printHelp` writes. -/
def helpText : String :=
  "\nAvailable commands:\n" ++
  "  /help       - Show this help message\n" ++
  "  /exit       - Exit the application\n" ++
  "  /quit       - Exit the application\n" ++
  "  /logout     - Sign out and exit\n" ++
  "  /new        - Start a new conversation\n" ++
  "  /history    - List your past conversations\n" ++
  "  /profile    - View your profile settings\n" ++
  "  /whoami     - Show current user\n" ++
  "\nJust type your message to chat with the agent.\n"

/-- Go `printHelp`. -/
def printHelp : List Event := [out (helpText ++ "\n")]

/-- The line `/history` writes for one conversation: title, then `ThreadID[:8]+"..."`. -/
def historyLine (title : String) (threadID8 : Bytes) : Event :=
  .stdout (utf8 ("  - " ++ title ++ " (Thread: ") ++ threadID8 ++ utf8 "...)\n")

/-- The `for _, conv := range conversations` loop of `/history`: the lines written,
and whether the loop ran to its end (`false`: slicing `conv.ThreadID[:8]` panicked). -/
def printConversations : List ConversationMetadata → List Event × Bool
  | [] => ([], true)
  | conv :: rest =>
    match sliceTo conv.ThreadID 8 with
    | none => ([], false)
    | some threadID8 =>
      let r := printConversations rest
      (historyLine conv.Title threadID8 :: r.1, r.2)

/-- What a call of `handleCommand` did: its events, the value of `*currentThreadID`
afterwards, and the error it returned (`none` for `nil`) unless it panicked. -/
structure CommandResult where
  events : List Event
  currentThreadID : Option String
  completion : Completion (Option String)

/-- Go `handleCommand`. -/
def handleCommand (json : Json) (w : World) (cmd : String) (apiClient : AgentClient)
    (currentThreadID : Option String) : CommandResult :=
  match Fields cmd with
  | [] => ⟨[], currentThreadID, .returned none⟩
  | part0 :: _ =>
    if part0 = "/help" then
      ⟨printHelp, currentThreadID, .returned none⟩
    else if part0 = "/exit" ∨ part0 = "/quit" then
      ⟨[out "Goodbye!\n"], currentThreadID, .returned (some "exit")⟩
    else if part0 = "/logout" then
      match AuthManager.SignOut w.msal with
      | (events, some err) => ⟨.signOut :: events, currentThreadID, .returned (some err)⟩
      | (events, none) => ⟨.signOut :: events, currentThreadID, .returned (some "exit")⟩
    else if part0 = "/new" then
      ⟨[out "✓ Started new conversation\n\n"], none, .returned none⟩
    else if part0 = "/history" then
      match apiClient.ListConversations json w.http with
      | .error err => ⟨[.listConversations], currentThreadID, .returned (some err.Error)⟩
      | .ok conversations =>
        match printConversations conversations with
        | (lines, false) =>
          ⟨.listConversations :: out "\nYour conversations:\n" :: lines, currentThreadID,
            .panicked⟩
        | (lines, true) =>
          ⟨.listConversations :: out "\nYour conversations:\n" :: lines ++ [out "\n"],
            currentThreadID, .returned none⟩
    else if part0 = "/profile" then
      match apiClient.GetProfile json w.http with
      | .error err => ⟨[.getProfile], currentThreadID, .returned (some err.Error)⟩
      | .ok profile =>
        ⟨[.getProfile, out "\nYour Profile:\n",
          out ("  Instructions: " ++ profile.PreferredAgentInstructions ++ "\n"), out "\n"],
          currentThreadID, .returned none⟩
    else if part0 = "/whoami" then
      match AuthManager.GetCurrentUser w.msal with
      | (events, user) =>
        if user = "" then
          ⟨.getCurrentUser :: events ++ [out "Not authenticated\n"], currentThreadID,
            .returned none⟩
        else
          ⟨.getCurrentUser :: events ++ [out ("Logged in as: " ++ user ++ "\n\n")],
            currentThreadID, .returned none⟩
    else
      ⟨[out ("Unknown command: " ++ part0 ++ " (type /help for available commands)\n\n")],
        currentThreadID, .returned none⟩

/-- How one iteration of the loop ends: `continue` (or falling through to the next
iteration), or the end of `runChatLoop`. -/
inductive Control where
  | next
  | stop (completion : Completion (Option String))
  deriving DecidableEq, Repr

/-- What one iteration of the loop did after `scanner.Scan()` delivered a line. -/
structure Iteration where
  events : List Event
  currentThreadID : Option String
  control : Control

/-- The body of the `for` loop of `runChatLoop` from `scanner.Text()` on (main.go
lines 71-97): `text` is the line read, `currentThreadID` the loop variable. -/
def iteration (json : Json) (apiClient : AgentClient) (currentThreadID : Option String)
    (text : String) (w : World) : Iteration :=
  let input := TrimSpace text
  if input = "" then
    ⟨[], currentThreadID, .next⟩
  else if HasPrefix input "/" then
    let r := handleCommand json w input apiClient currentThreadID
    match r.completion with
    | .panicked => ⟨.handleCommand input :: r.events, r.currentThreadID, .stop .panicked⟩
    | .returned none => ⟨.handleCommand input :: r.events, r.currentThreadID, .next⟩
    | .returned (some err) =>
      if err = "exit" then
        ⟨.handleCommand input :: r.events, r.currentThreadID, .stop (.returned none)⟩
      else
        ⟨.handleCommand input :: r.events ++ [out ("Error: " ++ err ++ "\n\n")],
          r.currentThreadID, .next⟩
  else
    match apiClient.SendMessage json w.http input currentThreadID with
    | .error err =>
      ⟨[.sendMessage input currentThreadID (.error err),
        out ("Error: " ++ err.Error ++ "\n\n")], currentThreadID, .next⟩
    | .ok response =>
      ⟨[.sendMessage input currentThreadID (.ok response),
        out ("Agent: " ++ response.Message ++ "\n\n")], some response.ThreadID, .next⟩

/-- The `for` loop of `runChatLoop`, started with the loop variable at
`currentThreadID`. `lines` are the lines `scanner.Scan()` delivers, each with the
world of its iteration; `scanErr` is `scanner.Err()` once `Scan` returns false. -/
def chatLoop (json : Json) (apiClient : AgentClient) (currentThreadID : Option String) :
    List (String × World) → Option String → List Event × Completion (Option String)
  | [], scanErr => ([out "You: "], .returned scanErr)
  | (text, w) :: rest, scanErr =>
    let it := iteration json apiClient currentThreadID text w
    match it.control with
    | .stop completion => (out "You: " :: it.events, completion)
    | .next =>
      let r := chatLoop json apiClient it.currentThreadID rest scanErr
      (out "You: " :: it.events ++ r.1, r.2)

/-- Go `runChatLoop`: the events of the session, and the error returned (`none` for
`nil`) unless the program panicked. -/
def runChatLoop (json : Json) (apiClient : AgentClient) (lines : List (String × World))
    (scanErr : Option String) : List Event × Completion (Option String) :=
  let r := chatLoop json apiClient none lines scanErr
  (out "Chat with your agent (type '/help' for commands)\n\n" :: r.1, r.2)

/-! ## The thread reference the specification prescribes -/

/-- How one event moves the thread reference the specification prescribes for the
next send: a successful send moves it to the `threadId` of the response, a handled
`/new` command clears it, nothing else touches it. -/
def specStep (t : Option String) : Event → Option String
  | .sendMessage _ _ (.ok response) => some response.ThreadID
  | .handleCommand cmd => if (Fields cmd).head? = some "/new" then none else t
  | _ => t

/-- The thread reference the specification prescribes for the next send, read off
the events so far: the `threadId` of the most recent successful send, or none if a
`/new` command was handled after it; `t` is the reference before these events. -/
def specThreadRef (t : Option String) (events : List Event) : Option String :=
  events.foldl specStep t

/-- The thread reference an event passes to `SendMessage`, if it is such a call. -/
def Event.carried : Event → Option (Option String)
  | .sendMessage _ threadID _ => some threadID
  | _ => none

/-- The continuity property of a list of events that starts with the prescribed
thread reference at `t`: every call of `SendMessage` in it carries the thread
reference prescribed at that point. -/
def SendsCarrySpecRef (t : Option String) : List Event → Prop
  | [] => True
  | e :: rest => (∀ threadID, e.carried = some threadID → threadID = t) ∧
      SendsCarrySpecRef (specStep t e) rest

/-- Recognises a call of `AcquireTokenByDeviceCode` (device-code initiation). -/
def Event.isDeviceCodeInit : Event → Bool
  | .acquireTokenByDeviceCode => true
  | _ => false

/-- Recognises a call of `handleCommand` or of `SendMessage`. -/
def Event.isLoopCall : Event → Bool
  | .handleCommand _ => true
  | .sendMessage _ _ _ => true
  | _ => false

/-! ## Concrete decoders and worlds, used to instantiate the theorems -/

/-- A JSON decoder that understands three literal documents and rejects all other
input with a syntax error. -/
def sampleJson : Json where
  unmarshalErrorResponse := fun data v =>
    if data = "\x7b\"error\":\"forbidden\",\"message\":\"no access\"\x7d" then
      (none, ⟨"forbidden", "no access"⟩)
    else (some "invalid character", v)
  unmarshalAgentResponse := fun data v =>
    if data = "\x7b\"threadId\":\"t1\",\"message\":\"Hi\"\x7d" then
      (none, ⟨"t1", "Hi", v.Timestamp⟩)
    else (some "invalid character", v)
  unmarshalUserProfile := fun _ v => (some "invalid character", v)
  unmarshalConversations := fun data v =>
    if data = "[\x7b\"threadId\":\"t1\",\"title\":\"First chat\"\x7d]" then
      (none, [⟨0, "t1", "First chat", ⟨0, 0⟩, ⟨0, 0⟩⟩])
    else (some "invalid character", v)

/-- The client `main` builds for its constant server URL, with some token. -/
def sampleClient : AgentClient := NewAgentClient "http://localhost:5000" "token"

/-- An agent service that answers every request with the given status and body. -/
def respond (statusCode : Int) (respBody : String) : HttpRequest → Exchange :=
  fun _ => ⟨none, none, none, none, statusCode, respBody⟩

/-- An MSAL client with one cached account whose removal succeeds. -/
def msalSignedIn : Msal where
  Accounts := .ok [⟨"home-1", "ada@example.org"⟩]
  AcquireTokenSilent := fun a => .ok ⟨a, "silent-token"⟩
  AcquireTokenByDeviceCode := .error "device code unavailable"
  RemoveAccount := fun _ => none

/-- An MSAL client whose account enumeration fails. -/
def msalBroken : Msal where
  Accounts := .error "cache unreadable"
  AcquireTokenSilent := fun _ => .error "no token"
  AcquireTokenByDeviceCode := .error "device code unavailable"
  RemoveAccount := fun _ => some "cache unreadable"

/-- An MSAL client with one cached account whose silent acquisition fails, and a
device-code flow that succeeds. -/
def msalExpired : Msal where
  Accounts := .ok [⟨"home-1", "ada@example.org"⟩]
  AcquireTokenSilent := fun _ => .error "token expired"
  AcquireTokenByDeviceCode :=
    .ok ⟨"Open the sign-in page and enter the code ABCD", .ok ⟨⟨"home-1", "ada@example.org"⟩,
      "device-token"⟩⟩
  RemoveAccount := fun _ => none

/-- The agent answers `threadId: t1, message: Hi`. -/
def worldHi : World :=
  ⟨respond 200 "\x7b\"threadId\":\"t1\",\"message\":\"Hi\"\x7d", msalSignedIn⟩

/-- The agent answers status 500 with the body `internal error`. -/
def worldDown : World := ⟨respond 500 "internal error", msalSignedIn⟩

/-- The agent lists one conversation, whose thread identifier is `t1`. -/
def worldShortThread : World :=
  ⟨respond 200 "[\x7b\"threadId\":\"t1\",\"title\":\"First chat\"\x7d]", msalSignedIn⟩

/-- The agent is fine, account enumeration fails. -/
def worldSignOutFails : World :=
  ⟨respond 200 "\x7b\"threadId\":\"t1\",\"message\":\"Hi\"\x7d", msalBroken⟩

/-! ## Facts about the Go string functions -/

theorem fieldsFrom_dropWhile (l : List Char) :
    fieldsFrom (l.dropWhile isSpace) [] = fieldsFrom l [] := by
  induction l with
  | nil => rfl
  | cons c cs ih =>
    by_cases h : isSpace c = true
    · simp [List.dropWhile, h, fieldsFrom, ih]
    · simp [List.dropWhile, h]

theorem fieldsFrom_spaces (t : List Char) (ht : ∀ c ∈ t, isSpace c = true) (cur : List Char) :
    fieldsFrom t cur = fieldsFrom [] cur := by
  induction t generalizing cur with
  | nil => rfl
  | cons c cs ih =>
    have hc : isSpace c = true := ht c (List.mem_cons_self _ _)
    have hcs : ∀ d ∈ cs, isSpace d = true := fun d hd => ht d (List.mem_cons_of_mem _ hd)
    simp [fieldsFrom, hc, ih hcs]

theorem fieldsFrom_append_spaces (t : List Char) (ht : ∀ c ∈ t, isSpace c = true)
    (l cur : List Char) : fieldsFrom (l ++ t) cur = fieldsFrom l cur := by
  induction l generalizing cur with
  | nil => simpa using fieldsFrom_spaces t ht cur
  | cons c cs ih => simp [fieldsFrom, ih]

/-- Splitting a text at its trailing white space. -/
theorem rdropWhile_append_spaces (l : List Char) :
    ∃ t, (∀ c ∈ t, isSpace c = true) ∧ l = l.rdropWhile isSpace ++ t := by
  refine ⟨l.rtakeWhile isSpace, fun c hc => List.mem_rtakeWhile_imp hc, ?_⟩
  have h := List.takeWhile_append_dropWhile isSpace l.reverse
  have h2 := congrArg List.reverse h
  simp only [List.reverse_append, List.reverse_reverse] at h2
  simpa [List.rdropWhile, List.rtakeWhile] using h2.symm

/-- Trimming does not change the fields of a text. -/
theorem Fields_TrimSpace (s : String) : Fields (TrimSpace s) = Fields s := by
  obtain ⟨t, ht, hl⟩ := rdropWhile_append_spaces (s.data.dropWhile isSpace)
  have h1 : fieldsFrom ((s.data.dropWhile isSpace).rdropWhile isSpace) [] =
      fieldsFrom (s.data.dropWhile isSpace) [] := by
    conv_rhs => rw [hl]
    exact (fieldsFrom_append_spaces t ht _ _).symm
  simp only [Fields, TrimSpace]
  rw [h1, fieldsFrom_dropWhile]

theorem dropWhile_concat_of_not (p : Char → Bool) (c : Char) (hc : p c = false)
    (l : List Char) : (l ++ [c]).dropWhile p = l.dropWhile p ++ [c] := by
  induction l with
  | nil => simp [List.dropWhile, hc]
  | cons d ds ih =>
    by_cases hd : p d = true
    · simp [List.dropWhile, hd, ih]
    · simp [List.dropWhile, hd]

theorem rdropWhile_cons_of_not (c : Char) (hc : isSpace c = false) (cs : List Char) :
    (c :: cs).rdropWhile isSpace = c :: cs.rdropWhile isSpace := by
  simp [List.rdropWhile, dropWhile_concat_of_not isSpace c hc]

theorem fieldsFrom_head (cs cur : List Char) (h : cur ≠ []) :
    (fieldsFrom cs cur).head? =
      some (String.mk (cur ++ cs.takeWhile (fun c => !isSpace c))) := by
  induction cs generalizing cur with
  | nil => simp [fieldsFrom, h]
  | cons c cs ih =>
    by_cases hc : isSpace c = true
    · simp [fieldsFrom, hc, h, List.takeWhile]
    · have hne : cur ++ [c] ≠ [] := by simp
      simp [fieldsFrom, hc, List.takeWhile, ih _ hne]

/-- The shape of a trimmed text: either the text is all white space, and then it has
no fields and trims to the empty text, or its first field and its trimmed form
start with the same non-space character. -/
theorem trim_cases (s : String) :
    ((∀ c ∈ s.data, isSpace c = true) ∧ TrimSpace s = "" ∧ Fields s = []) ∨
    (∃ (c : Char) (cs : List Char), isSpace c = false ∧ (TrimSpace s).data = c :: cs.rdropWhile isSpace ∧
      (Fields s).head? = some (String.mk (c :: cs.takeWhile (fun d => !isSpace d)))) := by
  rcases hd : s.data.dropWhile isSpace with _ | ⟨c, cs⟩
  · left
    have hall : ∀ c ∈ s.data, isSpace c = true := by
      simpa [List.dropWhile_eq_nil_iff] using hd
    refine ⟨hall, ?_, ?_⟩
    · simp [TrimSpace, hd]
    · have := fieldsFrom_dropWhile s.data
      rw [hd] at this
      simpa [Fields, fieldsFrom] using this.symm
  · right
    have hc : isSpace c = false := by
      have := List.head_dropWhile_not isSpace s.data (by simp [hd])
      simpa [hd] using this
    refine ⟨c, cs, hc, ?_, ?_⟩
    · simp [TrimSpace, hd, rdropWhile_cons_of_not c hc]
    · have h1 := fieldsFrom_dropWhile s.data
      rw [hd] at h1
      have h2 : fieldsFrom (c :: cs) [] = fieldsFrom cs [c] := by simp [fieldsFrom, hc]
      rw [Fields, ← h1, h2, fieldsFrom_head cs [c] (by simp)]
      simp

/-- A line of white space only trims to the empty text. -/
theorem TrimSpace_of_spaces (s : String) (h : ∀ c ∈ s.data, isSpace c = true) :
    TrimSpace s = "" := by
  rcases trim_cases s with ⟨_, h1, _⟩ | ⟨c, cs, hc, h1, _⟩
  · exact h1
  · exfalso
    have hd : s.data.dropWhile isSpace = [] := by
      simpa [List.dropWhile_eq_nil_iff] using h
    have : (TrimSpace s).data = [] := by simp [TrimSpace, hd]
    rw [h1] at this
    exact List.cons_ne_nil _ _ this

/-- A line whose first field starts with `/` is a command line for the loop: its
trimmed form is not empty and has the command marker as its first character. -/
theorem command_of_head (s p : String) (h : (Fields s).head? = some p)
    (hp : p.data.head? = some '/') :
    TrimSpace s ≠ "" ∧ HasPrefix (TrimSpace s) "/" = true := by
  rcases trim_cases s with ⟨_, _, h1⟩ | ⟨c, cs, hc, h1, h2⟩
  · simp [h1] at h
  · rw [h2] at h
    have hpc : p = String.mk (c :: cs.takeWhile (fun d => !isSpace d)) := by
      simpa using h.symm
    have hc2 : c = '/' := by
      rw [hpc] at hp
      simpa using hp
    subst hc2
    constructor
    · intro h0
      rw [h0] at h1
      exact List.cons_ne_nil _ _ h1.symm
    · simp [HasPrefix, h1, List.isPrefixOf]

/-- A line that starts with `/` has a first field, which starts with `/`, and its
trimmed form starts with `/` too. -/
theorem command_of_hasPrefix (s : String) (h : HasPrefix s "/" = true) :
    TrimSpace s ≠ "" ∧ HasPrefix (TrimSpace s) "/" = true ∧ ∃ p, (Fields s).head? = some p := by
  have hs : ∃ cs, s.data = '/' :: cs := by
    rcases hd : s.data with _ | ⟨c, cs⟩
    · simp [HasPrefix, hd, List.isPrefixOf] at h
    · simp [HasPrefix, hd, List.isPrefixOf] at h
      exact ⟨cs, by rw [h]⟩
  obtain ⟨cs0, hs0⟩ := hs
  rcases trim_cases s with ⟨hall, _, _⟩ | ⟨c, cs, hc, h1, h2⟩
  · have := hall '/' (by simp [hs0])
    simp [isSpace] at this
  · have hd : s.data.dropWhile isSpace = '/' :: cs0 := by
      rw [hs0]
      simp [List.dropWhile, isSpace]
    have h3 : (TrimSpace s).data = '/' :: cs0.rdropWhile isSpace := by
      simp [TrimSpace, hd, rdropWhile_cons_of_not '/' (by simp [isSpace])]
    refine ⟨?_, ?_, _, h2⟩
    · intro h0
      rw [h0] at h3
      exact List.cons_ne_nil _ _ h3.symm
    · simp [HasPrefix, h3, List.isPrefixOf]

/-! ## Facts about the command handler and the loop -/

/-- The loop goes on after an iteration that ends in `next`. -/
theorem chatLoop_next (json : Json) (c : AgentClient) (tid : Option String) (text : String)
    (w : World) (rest : List (String × World)) (scanErr : Option String)
    (h : (iteration json c tid text w).control = .next) :
    chatLoop json c tid ((text, w) :: rest) scanErr =
      (out "You: " :: (iteration json c tid text w).events ++
        (chatLoop json c (iteration json c tid text w).currentThreadID rest scanErr).1,
       (chatLoop json c (iteration json c tid text w).currentThreadID rest scanErr).2) := by
  simp [chatLoop, h]

/-- The loop ends with an iteration that ends in `stop`, whatever lines are left. -/
theorem chatLoop_stop (json : Json) (c : AgentClient) (tid : Option String) (text : String)
    (w : World) (rest : List (String × World)) (scanErr : Option String)
    (completion : Completion (Option String))
    (h : (iteration json c tid text w).control = .stop completion) :
    chatLoop json c tid ((text, w) :: rest) scanErr =
      (out "You: " :: (iteration json c tid text w).events, completion) := by
  simp [chatLoop, h]

/-- The only command that writes the thread reference is `/new`. -/
theorem handleCommand_threadID (json : Json) (w : World) (cmd : String) (c : AgentClient)
    (tid : Option String) :
    (handleCommand json w cmd c tid).currentThreadID =
      if (Fields cmd).head? = some "/new" then none else tid := by
  unfold handleCommand
  rcases hF : Fields cmd with _ | ⟨p, tl⟩
  · simp
  · simp only [List.head?_cons, Option.some.injEq]
    repeat' split
    all_goals simp_all

/-- A text whose first character is not `e` is not the sentinel text `exit`. -/
theorem ne_exit_of_head (s : String) (ch : Char) (hs : s.data.head? = some ch)
    (hch : ch ≠ 'e') : s ≠ "exit" := by
  intro h
  rw [h] at hs
  simp at hs
  exact hch hs.symm

/-- No error of `doRequest` has the text `exit`. -/
theorem DispatchError.Error_ne_exit (err : DispatchError) : err.Error ≠ "exit" := by
  cases err with
  | marshal cause => exact ne_exit_of_head _ 'f' (by simp [DispatchError.Error]) (by decide)
  | newRequest cause => exact ne_exit_of_head _ 'f' (by simp [DispatchError.Error]) (by decide)
  | transport cause => exact ne_exit_of_head _ 'r' (by simp [DispatchError.Error]) (by decide)
  | readBody cause => exact ne_exit_of_head _ 'f' (by simp [DispatchError.Error]) (by decide)
  | api statusCode message =>
    exact ne_exit_of_head _ 'A' (by simp [DispatchError.Error]) (by decide)
  | unmarshal cause => exact ne_exit_of_head _ 'f' (by simp [DispatchError.Error]) (by decide)

/-- An error of the account removal loop starts with `failed to remove account: `. -/
theorem removeAccounts_error (client : Msal) (accounts : List Account) (err : String)
    (h : (AuthManager.removeAccounts client accounts).2 = some err) :
    ∃ cause, err = "failed to remove account: " ++ cause := by
  induction accounts with
  | nil => simp [AuthManager.removeAccounts] at h
  | cons a rest ih =>
    unfold AuthManager.removeAccounts at h
    split at h
    · rename_i cause _
      exact ⟨cause, by simpa using h.symm⟩
    · exact ih h

/-- No error of `SignOut` has the text `exit`. -/
theorem SignOut_error_ne_exit (client : Msal) (err : String)
    (h : (AuthManager.SignOut client).2 = some err) : err ≠ "exit" := by
  unfold AuthManager.SignOut at h
  split at h
  · rename_i cause _
    have : err = "failed to get accounts: " ++ cause := by simpa using h.symm
    rw [this]
    exact ne_exit_of_head _ 'f' (by simp) (by decide)
  · rename_i accounts _
    split at h
    · rename_i events e hrem
      have he : e = err := by simpa using h
      obtain ⟨cause, hc⟩ := removeAccounts_error client accounts e (by rw [hrem])
      rw [← he, hc]
      exact ne_exit_of_head _ 'f' (by simp) (by decide)
    · simp at h

/-- A Go string has bytes exactly when it is not the empty text. -/
theorem utf8_length_pos (s : String) : 0 < (utf8 s).length ↔ s ≠ "" := by
  rcases s with ⟨l⟩
  cases l with
  | nil => simp [utf8]
  | cons ch cs =>
    have h := Char.utf8Size_pos ch
    constructor
    · intro _ h0
      have := congrArg String.data h0
      simp at this
    · intro _
      simp only [utf8, List.flatMap_cons, List.length_append, String.length_utf8EncodeChar]
      omega

/-- What `doRequest` does once the exchange got as far as a response: the part of
its body after `io.ReadAll` (client.go lines 80-94). -/
theorem doRequest_of_response {α : Type} (c : AgentClient) (json : Json)
    (http : HttpRequest → Exchange) (method path : String) (body : Option RequestBody)
    (decode : Option (Unmarshal α)) (result : α) (x : Exchange)
    (hx : http ⟨method, c.baseURL ++ path, "Bearer " ++ c.token, body⟩ = x)
    (hmarshal : body.isSome = true → x.marshalErr = none)
    (hnew : x.newRequestErr = none) (hdo : x.doErr = none) (hread : x.readErr = none) :
    c.doRequest json http method path body decode result =
      if 400 ≤ x.statusCode then
        match json.unmarshalErrorResponse x.respBody ErrorResponse.zero with
        | (none, errResp) => (some (.api x.statusCode errResp.Message), result)
        | (some _, _) => (some (.api x.statusCode x.respBody), result)
      else
        match decode with
        | some dec =>
          if 0 < (utf8 x.respBody).length then
            match dec x.respBody result with
            | (some err, r) => (some (.unmarshal err), r)
            | (none, r) => (none, r)
          else (none, result)
        | none => (none, result) := by
  have hm : (if body.isSome = true then x.marshalErr else none) = none := by
    by_cases hb : body.isSome = true
    · simp [hb, hmarshal hb]
    · simp [hb]
  simp only [AgentClient.doRequest, hx, hm, hnew, hdo, hread]

/-! ## The continuity property along the loop -/

theorem specThreadRef_append (t : Option String) (a b : List Event) :
    specThreadRef t (a ++ b) = specThreadRef (specThreadRef t a) b := by
  simp [specThreadRef, List.foldl_append]

theorem SendsCarrySpecRef_append (t : Option String) (a b : List Event) :
    SendsCarrySpecRef t (a ++ b) ↔
      SendsCarrySpecRef t a ∧ SendsCarrySpecRef (specThreadRef t a) b := by
  induction a generalizing t with
  | nil => simp [SendsCarrySpecRef, specThreadRef]
  | cons e rest ih =>
    simp only [List.cons_append, SendsCarrySpecRef, List.append_eq, ih, specThreadRef,
      List.foldl_cons, and_assoc]

/-- In a list of events with the continuity property, a call of `SendMessage`
carries the thread reference prescribed by the events before it. -/
theorem SendsCarrySpecRef_split (t : Option String) (pre post : List Event) (e : Event)
    (threadID : Option String) (h : SendsCarrySpecRef t (pre ++ e :: post))
    (he : e.carried = some threadID) : threadID = specThreadRef t pre := by
  rw [SendsCarrySpecRef_append] at h
  exact h.2.1 threadID he

/-- Events other than calls of `handleCommand` and `SendMessage` neither move the
prescribed thread reference nor carry one. -/
theorem quiet_events (t : Option String) (events : List Event)
    (h : ∀ e ∈ events, e.isLoopCall = false) :
    specThreadRef t events = t ∧ SendsCarrySpecRef t events := by
  induction events with
  | nil => simp [specThreadRef, SendsCarrySpecRef]
  | cons e rest ih =>
    have he : e.isLoopCall = false := h e (List.mem_cons_self _ _)
    have hrest := ih (fun d hd => h d (List.mem_cons_of_mem _ hd))
    have hstep : specStep t e = t ∧ e.carried = none := by
      cases e <;> simp_all [Event.isLoopCall, specStep, Event.carried]
    simp only [specThreadRef, List.foldl_cons, SendsCarrySpecRef, hstep.1, hstep.2]
    exact ⟨hrest.1, by simp, hrest.2⟩

theorem printConversations_quiet (conversations : List ConversationMetadata) :
    ∀ e ∈ (printConversations conversations).1, e.isLoopCall = false := by
  induction conversations with
  | nil => simp [printConversations]
  | cons conv rest ih =>
    unfold printConversations
    split
    · simp
    · intro e he
      simp only [List.mem_cons] at he
      rcases he with he | he
      · rw [he]
        rfl
      · exact ih e he

theorem removeAccounts_quiet (client : Msal) (accounts : List Account) :
    ∀ e ∈ (AuthManager.removeAccounts client accounts).1, e.isLoopCall = false := by
  induction accounts with
  | nil => simp [AuthManager.removeAccounts]
  | cons account rest ih =>
    unfold AuthManager.removeAccounts
    split
    · simp [Event.isLoopCall]
    · intro e he
      simp only [List.mem_cons] at he
      rcases he with he | he
      · rw [he]
        rfl
      · exact ih e he

theorem SignOut_quiet (client : Msal) (events : List Event) (r : Option String)
    (h : AuthManager.SignOut client = (events, r)) : ∀ e ∈ events, e.isLoopCall = false := by
  unfold AuthManager.SignOut at h
  split at h
  · simp only [Prod.mk.injEq] at h
    rw [← h.1]
    simp [Event.isLoopCall]
  · rename_i accounts _
    have hq := removeAccounts_quiet client accounts
    split at h
    · rename_i evs err hrem
      rw [hrem] at hq
      simp only [Prod.mk.injEq] at h
      rw [← h.1]
      intro e he
      simp only [List.mem_cons] at he
      rcases he with he | he
      · rw [he]
        rfl
      · exact hq e he
    · rename_i evs hrem
      rw [hrem] at hq
      simp only [Prod.mk.injEq] at h
      rw [← h.1]
      intro e he
      simp only [List.mem_cons, List.mem_append, List.mem_singleton, List.not_mem_nil,
        or_false, or_assoc] at he
      rcases he with he | he | he
      · rw [he]
        rfl
      · exact hq e he
      · rw [he]
        rfl

theorem GetCurrentUser_quiet (client : Msal) (events : List Event) (user : String)
    (h : AuthManager.GetCurrentUser client = (events, user)) :
    ∀ e ∈ events, e.isLoopCall = false := by
  unfold AuthManager.GetCurrentUser at h
  split at h <;> simp only [Prod.mk.injEq] at h <;> rw [← h.1] <;> simp [Event.isLoopCall]

theorem printConversations_lines_quiet (conversations : List ConversationMetadata)
    (lines : List Event) (b : Bool) (h : printConversations conversations = (lines, b)) :
    ∀ e ∈ lines, e.isLoopCall = false := by
  have hq := printConversations_quiet conversations
  rw [h] at hq
  exact hq

/-- The command handler itself neither sends a message nor calls itself. -/
theorem handleCommand_quiet (json : Json) (w : World) (cmd : String) (c : AgentClient)
    (tid : Option String) :
    ∀ e ∈ (handleCommand json w cmd c tid).events, e.isLoopCall = false := by
  unfold handleCommand
  repeat' split
  all_goals
    simp only [List.forall_mem_cons, List.forall_mem_append, printHelp]
    repeat' apply And.intro
  all_goals first
    | rfl
    | exact printConversations_lines_quiet _ _ _ (by assumption)
    | exact SignOut_quiet _ _ _ (by assumption)
    | exact GetCurrentUser_quiet _ _ _ (by assumption)
    | simp

/-- One iteration keeps the continuity property, and the loop variable after it is
the thread reference the specification prescribes after its events. -/
theorem iteration_continuity (json : Json) (c : AgentClient) (tid : Option String)
    (text : String) (w : World) :
    SendsCarrySpecRef tid (iteration json c tid text w).events ∧
    specThreadRef tid (iteration json c tid text w).events =
      (iteration json c tid text w).currentThreadID := by
  by_cases h1 : TrimSpace text = ""
  · simp [iteration, h1, SendsCarrySpecRef, specThreadRef]
  · by_cases h2 : HasPrefix (TrimSpace text) "/" = true
    · have hq := handleCommand_quiet json w (TrimSpace text) c tid
      have ht := handleCommand_threadID json w (TrimSpace text) c tid
      have hstep : specStep tid (.handleCommand (TrimSpace text)) =
          (handleCommand json w (TrimSpace text) c tid).currentThreadID := by
        rw [ht]
        rfl
      have hquiet := quiet_events
        (handleCommand json w (TrimSpace text) c tid).currentThreadID _ hq
      have herr : ∀ err : String,
          specThreadRef (handleCommand json w (TrimSpace text) c tid).currentThreadID
            [out err] = (handleCommand json w (TrimSpace text) c tid).currentThreadID ∧
          SendsCarrySpecRef (handleCommand json w (TrimSpace text) c tid).currentThreadID
            [out err] := by
        intro err
        exact quiet_events _ _ (by simp [out, Event.isLoopCall])
      simp only [iteration, h1, h2, if_true, if_false]
      repeat' split
      all_goals
        simp only [List.cons_append, SendsCarrySpecRef, specThreadRef, List.foldl_cons, hstep,
          Event.carried]
        refine ⟨⟨by simp, ?_⟩, ?_⟩
      · exact hquiet.2
      · exact hquiet.1
      · exact hquiet.2
      · exact hquiet.1
      · exact hquiet.2
      · exact hquiet.1
      · exact (SendsCarrySpecRef_append _ _ _).mpr ⟨hquiet.2, by rw [hquiet.1]; exact (herr _).2⟩
      · rename_i err _ _
        have h3 := specThreadRef_append
          (handleCommand json w (TrimSpace text) c tid).currentThreadID
          (handleCommand json w (TrimSpace text) c tid).events [out ("Error: " ++ err ++ "\n\n")]
        rw [hquiet.1] at h3
        exact h3.trans (herr _).1
    · have h2f : HasPrefix (TrimSpace text) "/" = false := by simpa using h2
      simp only [iteration, h1, h2f, if_false, Bool.false_eq_true, reduceIte]
      split <;> simp [SendsCarrySpecRef, specThreadRef, specStep, Event.carried, out]

/-- The loop keeps the continuity property, from any value of the loop variable. -/
theorem chatLoop_continuity (json : Json) (c : AgentClient) (scanErr : Option String)
    (lines : List (String × World)) :
    ∀ tid, SendsCarrySpecRef tid (chatLoop json c tid lines scanErr).1 := by
  induction lines with
  | nil =>
    intro tid
    simp [chatLoop, SendsCarrySpecRef, out, Event.carried]
  | cons line rest ih =>
    intro tid
    obtain ⟨text, w⟩ := line
    obtain ⟨hc, ht⟩ := iteration_continuity json c tid text w
    have hprompt : specStep tid (out "You: ") = tid := rfl
    rcases hctl : (iteration json c tid text w).control with _ | completion
    · rw [chatLoop_next json c tid text w rest scanErr hctl]
      refine ⟨by simp [out, Event.carried], ?_⟩
      rw [hprompt]
      exact (SendsCarrySpecRef_append _ _ _).mpr ⟨hc, by rw [ht]; exact ih _⟩
    · rw [chatLoop_stop json c tid text w rest scanErr completion hctl]
      exact ⟨by simp [out, Event.carried], by rw [hprompt]; exact hc⟩

/-! ## The claims -/

/-- C8: a line that is empty or consists only of white space makes the loop do
nothing in that iteration: no call of `SendMessage`, of `handleCommand` or of any
other collaborator, nothing written (so no error printed), the thread reference
unchanged; the loop goes on with the next line, the next thing written being the
prompt of the next read. -/
theorem blank_line_skipped (json : Json) (c : AgentClient) (tid : Option String)
    (text : String) (w : World) (rest : List (String × World)) (scanErr : Option String)
    (hblank : ∀ ch ∈ text.data, isSpace ch = true) :
    iteration json c tid text w = ⟨[], tid, .next⟩ ∧
    chatLoop json c tid ((text, w) :: rest) scanErr =
      (out "You: " :: (chatLoop json c tid rest scanErr).1,
        (chatLoop json c tid rest scanErr).2) := by
  have hit : iteration json c tid text w = ⟨[], tid, .next⟩ := by
    simp [iteration, TrimSpace_of_spaces text hblank]
  refine ⟨hit, ?_⟩
  rw [chatLoop_next json c tid text w rest scanErr (by rw [hit])]
  simp [hit]

/-- C8 at a concrete line: three blanks and a tab typed while thread `t1` is open. -/
theorem blank_line_skipped_witness :
    iteration sampleJson sampleClient (some "t1") "   \t" worldHi = ⟨[], some "t1", .next⟩ ∧
    chatLoop sampleJson sampleClient (some "t1") [("   \t", worldHi)] none =
      (out "You: " :: (chatLoop sampleJson sampleClient (some "t1") [] none).1,
        (chatLoop sampleJson sampleClient (some "t1") [] none).2) :=
  blank_line_skipped sampleJson sampleClient (some "t1") "   \t" worldHi [] none (by decide)

/-- C7: a line that starts with `/` and whose first field is none of the eight
command names makes `handleCommand` return no error, call neither the agent client
nor the auth manager (it only writes the "Unknown command" notice) and leave the
thread reference as it was; the loop goes on with the next line. -/
theorem unknown_command_ignored (json : Json) (c : AgentClient) (tid : Option String)
    (text : String) (w : World) (rest : List (String × World)) (scanErr : Option String)
    (part0 : String)
    (hmarker : HasPrefix text "/" = true)
    (hfirst : (Fields text).head? = some part0)
    (hunknown : part0 ∉
      ["/help", "/exit", "/quit", "/logout", "/new", "/history", "/profile", "/whoami"]) :
    handleCommand json w (TrimSpace text) c tid =
      ⟨[out ("Unknown command: " ++ part0 ++ " (type /help for available commands)\n\n")],
        tid, .returned none⟩ ∧
    iteration json c tid text w =
      ⟨[.handleCommand (TrimSpace text),
        out ("Unknown command: " ++ part0 ++ " (type /help for available commands)\n\n")],
        tid, .next⟩ ∧
    chatLoop json c tid ((text, w) :: rest) scanErr =
      (out "You: " :: .handleCommand (TrimSpace text) ::
        out ("Unknown command: " ++ part0 ++ " (type /help for available commands)\n\n") ::
        (chatLoop json c tid rest scanErr).1,
        (chatLoop json c tid rest scanErr).2) := by
  obtain ⟨hne, hpre, _⟩ := command_of_hasPrefix text hmarker
  obtain ⟨tl, hF⟩ : ∃ tl, Fields text = part0 :: tl := by
    rcases hd : Fields text with _ | ⟨p, tl⟩
    · simp [hd] at hfirst
    · simp [hd] at hfirst
      exact ⟨tl, by rw [hfirst]⟩
  simp only [List.mem_cons, List.mem_singleton, List.not_mem_nil, or_false, not_or] at hunknown
  obtain ⟨h1, h2, h3, h4, h5, h6, h7, h8⟩ := hunknown
  have hcmd : handleCommand json w (TrimSpace text) c tid =
      ⟨[out ("Unknown command: " ++ part0 ++ " (type /help for available commands)\n\n")],
        tid, .returned none⟩ := by
    simp [handleCommand, Fields_TrimSpace, hF, h1, h2, h3, h4, h5, h6, h7, h8]
  have hit : iteration json c tid text w =
      ⟨[.handleCommand (TrimSpace text),
        out ("Unknown command: " ++ part0 ++ " (type /help for available commands)\n\n")],
        tid, .next⟩ := by
    simp [iteration, hne, hpre, hcmd]
  refine ⟨hcmd, hit, ?_⟩
  rw [chatLoop_next json c tid text w rest scanErr (by rw [hit])]
  simp [hit]

/-- C7 at a concrete line: `/HELP now` is not a command (names are case-sensitive). -/
theorem unknown_command_ignored_witness :
    handleCommand sampleJson worldHi (TrimSpace "/HELP now") sampleClient (some "t1") =
      ⟨[out ("Unknown command: " ++ "/HELP" ++ " (type /help for available commands)\n\n")],
        some "t1", .returned none⟩ ∧
    iteration sampleJson sampleClient (some "t1") "/HELP now" worldHi =
      ⟨[.handleCommand (TrimSpace "/HELP now"),
        out ("Unknown command: " ++ "/HELP" ++ " (type /help for available commands)\n\n")],
        some "t1", .next⟩ ∧
    chatLoop sampleJson sampleClient (some "t1") [("/HELP now", worldHi)] none =
      (out "You: " :: .handleCommand (TrimSpace "/HELP now") ::
        out ("Unknown command: " ++ "/HELP" ++ " (type /help for available commands)\n\n") ::
        (chatLoop sampleJson sampleClient (some "t1") [] none).1,
        (chatLoop sampleJson sampleClient (some "t1") [] none).2) :=
  unknown_command_ignored sampleJson sampleClient (some "t1") "/HELP now" worldHi [] none
    "/HELP" (by decide) (by decide) (by decide)

/-- C3: no error of `doRequest` has the sentinel text `exit`; and when the exchange
of an iteration fails (a chat message whose `SendMessage` fails, `/history` whose
`ListConversations` fails, `/profile` whose `GetProfile` fails), the iteration ends
by writing `Error: ` and the error text, the thread reference is unchanged and the
loop goes on with the next line. -/
theorem failed_exchange_continues (json : Json) (c : AgentClient) (tid : Option String)
    (text : String) (w : World) (rest : List (String × World)) (scanErr : Option String)
    (err : DispatchError)
    (hfail :
      (TrimSpace text ≠ "" ∧ HasPrefix (TrimSpace text) "/" = false ∧
        c.SendMessage json w.http (TrimSpace text) tid = .error err) ∨
      ((Fields text).head? = some "/history" ∧ c.ListConversations json w.http = .error err) ∨
      ((Fields text).head? = some "/profile" ∧ c.GetProfile json w.http = .error err)) :
    (∀ e : DispatchError, e.Error ≠ "exit") ∧
    (iteration json c tid text w).control = .next ∧
    (iteration json c tid text w).currentThreadID = tid ∧
    (iteration json c tid text w).events.getLast? =
      some (out ("Error: " ++ err.Error ++ "\n\n")) ∧
    chatLoop json c tid ((text, w) :: rest) scanErr =
      (out "You: " :: (iteration json c tid text w).events ++
        (chatLoop json c tid rest scanErr).1, (chatLoop json c tid rest scanErr).2) := by
  have hne := DispatchError.Error_ne_exit err
  have key : (iteration json c tid text w).control = .next ∧
      (iteration json c tid text w).currentThreadID = tid ∧
      (iteration json c tid text w).events.getLast? =
        some (out ("Error: " ++ err.Error ++ "\n\n")) := by
    rcases hfail with ⟨h1, h2, h3⟩ | ⟨h1, h2⟩ | ⟨h1, h2⟩
    · simp [iteration, h1, h2, h3]
    · obtain ⟨hne0, hpre⟩ := command_of_head text "/history" h1 (by decide)
      obtain ⟨tl, hF⟩ : ∃ tl, Fields text = "/history" :: tl := by
        rcases hd : Fields text with _ | ⟨p, tl⟩
        · simp [hd] at h1
        · simp [hd] at h1
          exact ⟨tl, by rw [h1]⟩
      have hcmd : handleCommand json w (TrimSpace text) c tid =
          ⟨[.listConversations], tid, .returned (some err.Error)⟩ := by
        simp [handleCommand, Fields_TrimSpace, hF, h2]
      simp [iteration, hne0, hpre, hcmd, hne]
    · obtain ⟨hne0, hpre⟩ := command_of_head text "/profile" h1 (by decide)
      obtain ⟨tl, hF⟩ : ∃ tl, Fields text = "/profile" :: tl := by
        rcases hd : Fields text with _ | ⟨p, tl⟩
        · simp [hd] at h1
        · simp [hd] at h1
          exact ⟨tl, by rw [h1]⟩
      have hcmd : handleCommand json w (TrimSpace text) c tid =
          ⟨[.getProfile], tid, .returned (some err.Error)⟩ := by
        simp [handleCommand, Fields_TrimSpace, hF, h2]
      simp [iteration, hne0, hpre, hcmd, hne]
  refine ⟨DispatchError.Error_ne_exit, key.1, key.2.1, key.2.2, ?_⟩
  rw [chatLoop_next json c tid text w rest scanErr key.1, key.2.1]

/-- C3 at a concrete input: the message `Hello` meets a server that answers 500
`internal error`; the error is written and the loop goes on. -/
theorem failed_exchange_continues_witness :
    (∀ e : DispatchError, e.Error ≠ "exit") ∧
    (iteration sampleJson sampleClient none "Hello" worldDown).control = .next ∧
    (iteration sampleJson sampleClient none "Hello" worldDown).currentThreadID = none ∧
    (iteration sampleJson sampleClient none "Hello" worldDown).events.getLast? =
      some (out ("Error: " ++ (DispatchError.api 500 "internal error").Error ++ "\n\n")) ∧
    chatLoop sampleJson sampleClient none [("Hello", worldDown)] none =
      (out "You: " :: (iteration sampleJson sampleClient none "Hello" worldDown).events ++
        (chatLoop sampleJson sampleClient none [] none).1,
        (chatLoop sampleJson sampleClient none [] none).2) :=
  failed_exchange_continues sampleJson sampleClient none "Hello" worldDown [] none
    (.api 500 "internal error") (Or.inl ⟨by decide, by decide, by rfl⟩)

/-- C2 fails as stated: with an account enumeration that fails, `/logout` does
not end the loop. `SignOut` returns `failed to get accounts: cache unreadable`, the loop
writes it as an error, reads the next line `Hello` and sends it. -/
theorem logout_continues_when_signOut_fails :
    (AuthManager.SignOut worldSignOutFails.msal).2 =
      some "failed to get accounts: cache unreadable" ∧
    (iteration sampleJson sampleClient none "/logout" worldSignOutFails).control = .next ∧
    chatLoop sampleJson sampleClient none
        [("/logout", worldSignOutFails), ("Hello", worldHi)] none =
      ([out "You: ", .handleCommand "/logout", .signOut, .accounts,
        out "Error: failed to get accounts: cache unreadable\n\n",
        out "You: ", .sendMessage "Hello" none (.ok ⟨"t1", "Hi", ⟨0, 0⟩⟩),
        out "Agent: Hi\n\n",
        out "You: "], .returned none) := by
  refine ⟨by rfl, by rfl, by rfl⟩

/-- C2, amended: a line whose first field is `/logout` calls `SignOut`. When
`SignOut` succeeds the loop ends there, returning no error, whatever lines are left
unread. When `SignOut` fails its error is not the sentinel `exit`: the loop writes
it, leaves the thread reference as it was and goes on with the next line. -/
theorem logout_terminates_iff_signed_out (json : Json) (c : AgentClient)
    (tid : Option String) (text : String) (w : World) (rest : List (String × World))
    (scanErr : Option String)
    (hlogout : (Fields text).head? = some "/logout") :
    (∀ events, AuthManager.SignOut w.msal = (events, none) →
      iteration json c tid text w =
        ⟨.handleCommand (TrimSpace text) :: .signOut :: events, tid,
          .stop (.returned none)⟩ ∧
      chatLoop json c tid ((text, w) :: rest) scanErr =
        (out "You: " :: .handleCommand (TrimSpace text) :: .signOut :: events,
          .returned none)) ∧
    (∀ events err, AuthManager.SignOut w.msal = (events, some err) →
      err ≠ "exit" ∧
      iteration json c tid text w =
        ⟨.handleCommand (TrimSpace text) :: .signOut :: events ++
          [out ("Error: " ++ err ++ "\n\n")], tid, .next⟩ ∧
      chatLoop json c tid ((text, w) :: rest) scanErr =
        (out "You: " :: .handleCommand (TrimSpace text) :: .signOut :: events ++
          [out ("Error: " ++ err ++ "\n\n")] ++ (chatLoop json c tid rest scanErr).1,
          (chatLoop json c tid rest scanErr).2)) := by
  obtain ⟨hne0, hpre⟩ := command_of_head text "/logout" hlogout (by decide)
  obtain ⟨tl, hF⟩ : ∃ tl, Fields text = "/logout" :: tl := by
    rcases hd : Fields text with _ | ⟨p, tl⟩
    · simp [hd] at hlogout
    · simp [hd] at hlogout
      exact ⟨tl, by rw [hlogout]⟩
  constructor
  · intro events hso
    have hcmd : handleCommand json w (TrimSpace text) c tid =
        ⟨.signOut :: events, tid, .returned (some "exit")⟩ := by
      simp [handleCommand, Fields_TrimSpace, hF, hso]
    have hit : iteration json c tid text w =
        ⟨.handleCommand (TrimSpace text) :: .signOut :: events, tid,
          .stop (.returned none)⟩ := by
      simp [iteration, hne0, hpre, hcmd]
    refine ⟨hit, ?_⟩
    rw [chatLoop_stop json c tid text w rest scanErr (.returned none) (by rw [hit]), hit]
  · intro events err hso
    have hne : err ≠ "exit" := SignOut_error_ne_exit w.msal err (by rw [hso])
    have hcmd : handleCommand json w (TrimSpace text) c tid =
        ⟨.signOut :: events, tid, .returned (some err)⟩ := by
      simp [handleCommand, Fields_TrimSpace, hF, hso]
    have hit : iteration json c tid text w =
        ⟨.handleCommand (TrimSpace text) :: .signOut :: events ++
          [out ("Error: " ++ err ++ "\n\n")], tid, .next⟩ := by
      simp [iteration, hne0, hpre, hcmd, hne]
    refine ⟨hne, hit, ?_⟩
    rw [chatLoop_next json c tid text w rest scanErr (by rw [hit]), hit]
    simp

/-- C2, amended, at a concrete line: `/logout` typed while thread `t1` is open and the
one cached account can be removed. -/
theorem logout_terminates_iff_signed_out_witness :
    (Fields "/logout").head? = some "/logout" ∧
    iteration sampleJson sampleClient (some "t1") "/logout" worldHi =
      ⟨.handleCommand (TrimSpace "/logout") :: .signOut ::
        [.accounts, .removeAccount ⟨"home-1", "ada@example.org"⟩,
          out "✓ Signed out successfully\n"], some "t1", .stop (.returned none)⟩ ∧
    chatLoop sampleJson sampleClient (some "t1") [("/logout", worldHi), ("Hello", worldHi)]
        none =
      (out "You: " :: .handleCommand (TrimSpace "/logout") :: .signOut ::
        [.accounts, .removeAccount ⟨"home-1", "ada@example.org"⟩,
          out "✓ Signed out successfully\n"], .returned none) :=
  ⟨by decide,
   (logout_terminates_iff_signed_out sampleJson sampleClient (some "t1") "/logout" worldHi
      [("Hello", worldHi)] none (by decide)).1 _ (by rfl)⟩

/-- C10: the thread reference after an iteration. A successful send sets it to the
`threadId` of the response and `/new` sets it to none; a failed send, every command
line whose first field is not `/new` (whatever the command does and however it
ends) and a blank line leave it as it was. -/
theorem thread_reference_frame (json : Json) (c : AgentClient) (tid : Option String)
    (text : String) (w : World) :
    (∀ response, TrimSpace text ≠ "" → HasPrefix (TrimSpace text) "/" = false →
      c.SendMessage json w.http (TrimSpace text) tid = .ok response →
      (iteration json c tid text w).currentThreadID = some response.ThreadID) ∧
    (HasPrefix (TrimSpace text) "/" = true → (Fields text).head? = some "/new" →
      (iteration json c tid text w).currentThreadID = none) ∧
    (∀ err, TrimSpace text ≠ "" → HasPrefix (TrimSpace text) "/" = false →
      c.SendMessage json w.http (TrimSpace text) tid = .error err →
      (iteration json c tid text w).currentThreadID = tid) ∧
    (HasPrefix (TrimSpace text) "/" = true → (Fields text).head? ≠ some "/new" →
      (iteration json c tid text w).currentThreadID = tid) ∧
    (TrimSpace text = "" → (iteration json c tid text w).currentThreadID = tid) := by
  have hcmdline : HasPrefix (TrimSpace text) "/" = true →
      (iteration json c tid text w).currentThreadID =
        if (Fields text).head? = some "/new" then none else tid := by
    intro hpre
    have hne0 : TrimSpace text ≠ "" := by
      intro h0
      rw [h0] at hpre
      simp [HasPrefix, List.isPrefixOf] at hpre
    have h := handleCommand_threadID json w (TrimSpace text) c tid
    rw [Fields_TrimSpace] at h
    rw [← h]
    simp only [iteration, hne0, hpre, if_true, if_false]
    repeat' split
    all_goals rfl
  refine ⟨?_, ?_, ?_, ?_, ?_⟩
  · intro response h1 h2 h3
    simp [iteration, h1, h2, h3]
  · intro h1 h2
    rw [hcmdline h1, if_pos h2]
  · intro err h1 h2 h3
    simp [iteration, h1, h2, h3]
  · intro h1 h2
    rw [hcmdline h1, if_neg h2]
  · intro h1
    simp [iteration, h1]

/-- C10 at concrete lines, with thread `t0` open: `Hello` answered by `t1` moves the
reference to `t1`; `/new` clears it; `Hello` answered by status 500 keeps `t0`;
`/logout` whose sign-out fails keeps `t0`; a blank line keeps `t0`. -/
theorem thread_reference_frame_witness :
    (iteration sampleJson sampleClient (some "t0") "Hello" worldHi).currentThreadID =
      some "t1" ∧
    (iteration sampleJson sampleClient (some "t0") "/new" worldHi).currentThreadID = none ∧
    (iteration sampleJson sampleClient (some "t0") "Hello" worldDown).currentThreadID =
      some "t0" ∧
    (iteration sampleJson sampleClient (some "t0") "/logout" worldSignOutFails).currentThreadID
      = some "t0" ∧
    (iteration sampleJson sampleClient (some "t0") "  " worldHi).currentThreadID =
      some "t0" :=
  ⟨(thread_reference_frame sampleJson sampleClient (some "t0") "Hello" worldHi).1
      ⟨"t1", "Hi", ⟨0, 0⟩⟩ (by decide) (by decide) (by rfl),
   (thread_reference_frame sampleJson sampleClient (some "t0") "/new" worldHi).2.1
      (by decide) (by decide),
   (thread_reference_frame sampleJson sampleClient (some "t0") "Hello" worldDown).2.2.1
      (.api 500 "internal error") (by decide) (by decide) (by rfl),
   (thread_reference_frame sampleJson sampleClient (some "t0") "/logout"
      worldSignOutFails).2.2.2.1 (by decide) (by decide),
   (thread_reference_frame sampleJson sampleClient (some "t0") "  " worldHi).2.2.2.2
      (by decide)⟩

/-- C4: when the exchange gets as far as a response and its status is 400 or more,
`doRequest` returns an API error carrying that status, and leaves the result value
alone. The message is the `message` field of the decoded `ErrorResponse` when the
body decodes as one, and the raw body text when it does not. So the result is never
success and never a decode error; its text is `API error (status): message`. -/
theorem doRequest_status_ge_400 {α : Type} (c : AgentClient) (json : Json)
    (http : HttpRequest → Exchange) (method path : String) (body : Option RequestBody)
    (decode : Option (Unmarshal α)) (result : α) (x : Exchange)
    (hx : http ⟨method, c.baseURL ++ path, "Bearer " ++ c.token, body⟩ = x)
    (hmarshal : body.isSome = true → x.marshalErr = none)
    (hnew : x.newRequestErr = none) (hdo : x.doErr = none) (hread : x.readErr = none)
    (hstatus : 400 ≤ x.statusCode) :
    (∀ errResp, json.unmarshalErrorResponse x.respBody ErrorResponse.zero = (none, errResp) →
      c.doRequest json http method path body decode result =
        (some (.api x.statusCode errResp.Message), result)) ∧
    (∀ cause errResp,
      json.unmarshalErrorResponse x.respBody ErrorResponse.zero = (some cause, errResp) →
      c.doRequest json http method path body decode result =
        (some (.api x.statusCode x.respBody), result)) ∧
    (∃ message,
      (c.doRequest json http method path body decode result).1 =
        some (.api x.statusCode message) ∧
      (DispatchError.api x.statusCode message).Error =
        "API error (" ++ toString x.statusCode ++ "): " ++ message) := by
  have h := doRequest_of_response c json http method path body decode result x hx hmarshal
    hnew hdo hread
  rw [if_pos hstatus] at h
  refine ⟨?_, ?_, ?_⟩
  · intro errResp he
    rw [h, he]
  · intro cause errResp he
    rw [h, he]
  · rw [h]
    rcases hd : json.unmarshalErrorResponse x.respBody ErrorResponse.zero with ⟨_ | cause, er⟩
    · exact ⟨er.Message, rfl, rfl⟩
    · exact ⟨x.respBody, rfl, rfl⟩

/-- C4 at the input of the specification: status 500 with the body `internal error`,
which is not JSON, gives the API error with status 500 and message `internal error`. -/
theorem doRequest_status_ge_400_witness :
    sampleClient.doRequest sampleJson worldDown.http "GET" "/api/profile" none
        (some sampleJson.unmarshalUserProfile) UserProfile.zero =
      (some (.api 500 "internal error"), UserProfile.zero) :=
  (doRequest_status_ge_400 sampleClient sampleJson worldDown.http "GET" "/api/profile" none
    (some sampleJson.unmarshalUserProfile) UserProfile.zero
    ⟨none, none, none, none, 500, "internal error"⟩ (by rfl) (by decide) (by rfl) (by rfl)
    (by rfl) (by decide)).2.1 "invalid character" ErrorResponse.zero (by rfl)

/-- C5: when the exchange gets as far as a response and its status is below 400,
`doRequest` returns an error exactly when a result is expected, the body is not
empty and the body does not decode into the result; that error is the decode error.
With an empty body, and also with no result expected, it returns success and the
result value is what it was before the call. -/
theorem doRequest_status_lt_400 {α : Type} (c : AgentClient) (json : Json)
    (http : HttpRequest → Exchange) (method path : String) (body : Option RequestBody)
    (decode : Option (Unmarshal α)) (result : α) (x : Exchange)
    (hx : http ⟨method, c.baseURL ++ path, "Bearer " ++ c.token, body⟩ = x)
    (hmarshal : body.isSome = true → x.marshalErr = none)
    (hnew : x.newRequestErr = none) (hdo : x.doErr = none) (hread : x.readErr = none)
    (hstatus : x.statusCode < 400) :
    ((c.doRequest json http method path body decode result).1.isSome = true ↔
      ∃ dec, decode = some dec ∧ x.respBody ≠ "" ∧
        (dec x.respBody result).1.isSome = true) ∧
    (∀ err, (c.doRequest json http method path body decode result).1 = some err →
      ∃ dec cause, decode = some dec ∧ (dec x.respBody result).1 = some cause ∧
        err = .unmarshal cause) ∧
    (x.respBody = "" →
      c.doRequest json http method path body decode result = (none, result)) ∧
    (decode = none →
      c.doRequest json http method path body decode result = (none, result)) := by
  have h := doRequest_of_response c json http method path body decode result x hx hmarshal
    hnew hdo hread
  rw [if_neg (not_le.mpr hstatus)] at h
  rw [h]
  cases decode with
  | none =>
    refine ⟨⟨fun h1 => ?_, fun ⟨dec, hd, _⟩ => ?_⟩, fun err he => ?_, fun _ => rfl,
      fun _ => rfl⟩
    · simp at h1
    · cases hd
    · simp at he
  | some dec =>
    by_cases hb : x.respBody = ""
    · have h0 : ¬ 0 < (utf8 x.respBody).length := by
        rw [utf8_length_pos]
        simpa using hb
      simp only [if_neg h0]
      refine ⟨⟨fun h1 => by simp at h1, fun ⟨d, _, hne, _⟩ => absurd hb hne⟩,
        fun err he => by simp at he, fun _ => trivial, fun hd => by cases hd⟩
    · have h0 : 0 < (utf8 x.respBody).length := (utf8_length_pos _).mpr hb
      simp only [if_pos h0]
      rcases hd : dec x.respBody result with ⟨_ | cause, r⟩
      · refine ⟨⟨fun h1 => by simp at h1, fun ⟨d, hde, _, hs⟩ => ?_⟩,
          fun err he => by simp at he, fun he => absurd he hb, fun hd0 => by cases hd0⟩
        cases hde
        rw [hd] at hs
        simp at hs
      · refine ⟨⟨fun _ => ⟨dec, rfl, hb, by rw [hd]; rfl⟩, fun _ => rfl⟩,
          fun err he => ⟨dec, cause, rfl, by rw [hd], ?_⟩, fun he => absurd he hb,
          fun hd0 => by cases hd0⟩
        simpa using he.symm

/-- C5 at a concrete input: `UpdateProfile` (no result expected) answered by status
204 with an empty body succeeds. -/
theorem doRequest_status_lt_400_witness :
    sampleClient.doRequest sampleJson (respond 204 "") "PUT" "/api/profile"
        (some (.userProfile ⟨"be brief", ""⟩)) (none : Option (Unmarshal Unit)) () =
      (none, ()) ∧
    sampleClient.UpdateProfile sampleJson (respond 204 "") ⟨"be brief", ""⟩ = none :=
  ⟨(doRequest_status_lt_400 sampleClient sampleJson (respond 204 "") "PUT" "/api/profile"
      (some (.userProfile ⟨"be brief", ""⟩)) (none : Option (Unmarshal Unit)) ()
      ⟨none, none, none, none, 204, ""⟩ (by rfl) (by intro _; rfl) (by rfl) (by rfl)
      (by rfl) (by decide)).2.2.2 rfl, by rfl⟩

/-- C1: continuity. In every run of `runChatLoop`, whatever the lines typed and
whatever the world answers, each call of `SendMessage` carries the thread reference
the specification prescribes from the events before it (`specThreadRef`): the
`threadId` of the most recent successful send, and none if no send has succeeded
yet or a `/new` command was handled after the most recent successful send. -/
theorem send_carries_latest_thread (json : Json) (c : AgentClient)
    (lines : List (String × World)) (scanErr : Option String) (pre post : List Event)
    (message : String) (threadID : Option String)
    (result : Except DispatchError AgentResponse)
    (hsend : (runChatLoop json c lines scanErr).1 =
      pre ++ .sendMessage message threadID result :: post) :
    threadID = specThreadRef none pre := by
  have hloop := chatLoop_continuity json c scanErr lines none
  have hrun : SendsCarrySpecRef none (runChatLoop json c lines scanErr).1 := by
    refine ⟨by simp [out, Event.carried], ?_⟩
    exact hloop
  rw [hsend] at hrun
  exact SendsCarrySpecRef_split none pre post _ threadID hrun rfl

/-- C1 at the round trip of the specification: `Hello` is sent with no thread
reference and answered with thread `t1`; `How are you?` is then sent with `t1`. -/
theorem send_carries_latest_thread_witness :
    (runChatLoop sampleJson sampleClient [("Hello", worldHi), ("How are you?", worldHi)]
        none).1 =
      [out "Chat with your agent (type '/help' for commands)\n\n", out "You: ",
        .sendMessage "Hello" none (.ok ⟨"t1", "Hi", ⟨0, 0⟩⟩), out "Agent: Hi\n\n",
        out "You: "] ++
      .sendMessage "How are you?" (some "t1") (.ok ⟨"t1", "Hi", ⟨0, 0⟩⟩) ::
        [out "Agent: Hi\n\n", out "You: "] ∧
    some "t1" = specThreadRef none
      [out "Chat with your agent (type '/help' for commands)\n\n", out "You: ",
        .sendMessage "Hello" none (.ok ⟨"t1", "Hi", ⟨0, 0⟩⟩), out "Agent: Hi\n\n",
        out "You: "] :=
  ⟨by rfl,
   send_carries_latest_thread sampleJson sampleClient
    [("Hello", worldHi), ("How are you?", worldHi)] none _ _ "How are you?" (some "t1")
    (.ok ⟨"t1", "Hi", ⟨0, 0⟩⟩) (by rfl)⟩

/-- C6: given that account enumeration succeeds. If there is a cached account and
silent acquisition for the first one succeeds, `GetAccessToken` never calls
`AcquireTokenByDeviceCode` and returns the silently acquired token. If there is no
cached account, or silent acquisition for the first one fails, it calls
`AcquireTokenByDeviceCode` exactly once, and what it returns is determined by the
device-code flow alone: the error of the silent attempt is no part of it. -/
theorem GetAccessToken_device_code_calls (client : Msal) (accounts : List Account)
    (haccounts : client.Accounts = .ok accounts) :
    (∀ account rest result, accounts = account :: rest →
      client.AcquireTokenSilent account = .ok result →
      (AuthManager.GetAccessToken client).1.countP Event.isDeviceCodeInit = 0 ∧
      (AuthManager.GetAccessToken client).2 = .ok result.AccessToken) ∧
    ((accounts = [] ∨ ∃ account rest err, accounts = account :: rest ∧
        client.AcquireTokenSilent account = .error err) →
      (AuthManager.GetAccessToken client).1.countP Event.isDeviceCodeInit = 1 ∧
      (AuthManager.GetAccessToken client).2 =
        match client.AcquireTokenByDeviceCode with
        | .error err => .error ("authentication failed: " ++ err)
        | .ok deviceCode =>
          match deviceCode.AuthenticationResult with
          | .error err => .error ("authentication failed: " ++ err)
          | .ok result => .ok result.AccessToken) := by
  have hflow : (AuthManager.deviceCodeFlow client).1.countP Event.isDeviceCodeInit = 1 ∧
      (AuthManager.deviceCodeFlow client).2 =
        match client.AcquireTokenByDeviceCode with
        | .error err => .error ("authentication failed: " ++ err)
        | .ok deviceCode =>
          match deviceCode.AuthenticationResult with
          | .error err => .error ("authentication failed: " ++ err)
          | .ok result => .ok result.AccessToken := by
    unfold AuthManager.deviceCodeFlow
    rcases client.AcquireTokenByDeviceCode with err | deviceCode
    · exact ⟨by simp [out, Event.isDeviceCodeInit], rfl⟩
    · rcases hd : deviceCode.AuthenticationResult with err | result
      · simp only [hd]
        exact ⟨by simp [out, Event.isDeviceCodeInit], trivial⟩
      · simp only [hd]
        exact ⟨by simp [out, Event.isDeviceCodeInit], trivial⟩
  constructor
  · intro account rest result hacc hsilent
    subst hacc
    simp [AuthManager.GetAccessToken, haccounts, hsilent, out, Event.isDeviceCodeInit]
  · intro h
    rcases h with hacc | ⟨account, rest, err, hacc, hsilent⟩
    · subst hacc
      simp only [AuthManager.GetAccessToken, haccounts]
      refine ⟨?_, hflow.2⟩
      rw [List.countP_cons_of_neg]
      · exact hflow.1
      · simp [Event.isDeviceCodeInit]
    · subst hacc
      simp only [AuthManager.GetAccessToken, haccounts, hsilent]
      refine ⟨?_, hflow.2⟩
      rw [List.countP_cons_of_neg, List.countP_cons_of_neg]
      · exact hflow.1
      · simp [Event.isDeviceCodeInit]
      · simp [Event.isDeviceCodeInit]

/-- C6 at two concrete MSAL clients: one cached account with a successful silent
acquisition (no device-code call, the silent token is returned), and one cached
account whose silent acquisition fails (one device-code call, the token of the
device-code flow is returned). -/
theorem GetAccessToken_device_code_calls_witness :
    ((AuthManager.GetAccessToken msalSignedIn).1.countP Event.isDeviceCodeInit = 0 ∧
      (AuthManager.GetAccessToken msalSignedIn).2 = .ok "silent-token") ∧
    ((AuthManager.GetAccessToken msalExpired).1.countP Event.isDeviceCodeInit = 1 ∧
      (AuthManager.GetAccessToken msalExpired).2 = .ok "device-token") :=
  ⟨(GetAccessToken_device_code_calls msalSignedIn [⟨"home-1", "ada@example.org"⟩] rfl).1
      ⟨"home-1", "ada@example.org"⟩ [] ⟨⟨"home-1", "ada@example.org"⟩, "silent-token"⟩ rfl rfl,
   (GetAccessToken_device_code_calls msalExpired [⟨"home-1", "ada@example.org"⟩] rfl).2
      (Or.inr ⟨⟨"home-1", "ada@example.org"⟩, [], "token expired", rfl, rfl⟩)⟩

/-- C9, the code at the failing input: the agent lists one conversation whose thread
identifier `t1` has two bytes. `ListConversations` succeeds, `/history` writes the
heading, and slicing `conv.ThreadID[:8]` panics: no thread line is written, the
command does not complete, and the session ends there with the next line unread. -/
theorem history_short_thread_id_panics :
    sampleClient.ListConversations sampleJson worldShortThread.http =
      .ok [⟨0, "t1", "First chat", ⟨0, 0⟩, ⟨0, 0⟩⟩] ∧
    sliceTo "t1" 8 = none ∧
    (handleCommand sampleJson worldShortThread "/history" sampleClient none).completion =
      .panicked ∧
    runChatLoop sampleJson sampleClient
        [("/history", worldShortThread), ("Hello", worldHi)] none =
      ([out "Chat with your agent (type '/help' for commands)\n\n", out "You: ",
        .handleCommand "/history", .listConversations, out "\nYour conversations:\n"],
        .panicked) := by
  refine ⟨by rfl, by rfl, by rfl, by rfl⟩

end Squire
